import Mathlib

/-!
rancher-letsencrypt: configuration loading (`context.go`)

A shallow embedding of `context.go`: the helpers `getEnvOption` and
`listToSlice`, and the method `Context.InitContext`, together with the pieces of
the Go standard library they call (`strings.Fields`, `strings.Join`,
`strings.Split`, `strconv.Atoi`, `strings.EqualFold`, `os.Getenv`).

Go strings are modelled as Lean `String`s (sequences of Unicode code points);
the loops of the standard library run over the character list `String.data`.
`logrus.Fatalf` logs its message and exits the process, so a fatal error ends
`InitContext` at the first check that fails.
-/

namespace RancherLetsencrypt

/-! ## Standard library: `strings` -/

/-- The comma, the separator `listToSlice` splits on. -/
def comma : Char := Char.ofNat 44

/-- Go `unicode.IsSpace`: the Latin-1 spaces `\t \n \v \f \r`, space, U+0085,
U+00A0, and the code points of category Z with property Pattern_White_Space. -/
def isSpace (c : Char) : Bool :=
  let n := c.toNat
  (9 ≤ n && n ≤ 13) || n == 32 || n == 0x85 || n == 0xA0 || n == 0x1680 ||
  (0x2000 ≤ n && n ≤ 0x200A) || n == 0x2028 || n == 0x2029 || n == 0x202F ||
  n == 0x205F || n == 0x3000

/-- The scanning loop of `strings.Fields`: `cur` is the field being read, in
reverse (empty when the scan is between fields). -/
def fieldsLoop : List Char → List Char → List (List Char)
  | [], cur => if cur.isEmpty then [] else [cur.reverse]
  | c :: cs, cur =>
    if isSpace c then
      if cur.isEmpty then fieldsLoop cs [] else cur.reverse :: fieldsLoop cs []
    else fieldsLoop cs (c :: cur)

/-- Go `strings.Fields`: the maximal runs of non-space characters, in order. -/
def Fields (s : String) : List String :=
  (fieldsLoop s.data []).map String.mk

/-- Go `strings.Join`: the elements, with `sep` between neighbours. -/
def Join : List String → String → String
  | [], _ => ""
  | [a], _ => a
  | a :: b :: rest, sep => a ++ sep ++ Join (b :: rest) sep

/-- The scanning loop of `strings.Split` for a non-empty separator: `skip`
counts the characters of a matched separator still to be passed over, `cur` is
the piece being read, in reverse. -/
def splitLoop (sep : List Char) : List Char → Nat → List Char → List (List Char)
  | [], _, cur => [cur.reverse]
  | _ :: cs, skip + 1, cur => splitLoop sep cs skip cur
  | c :: cs, 0, cur =>
    if sep.isPrefixOf (c :: cs) then cur.reverse :: splitLoop sep cs (sep.length - 1) []
    else splitLoop sep cs 0 (c :: cur)

/-- Go `strings.Split`: the pieces of `s` between the occurrences of `sep`; with
an empty separator, the characters of `s` one by one. -/
def Split (s sep : String) : List String :=
  if sep.data.isEmpty then s.data.map (fun c => String.mk [c])
  else (splitLoop sep.data s.data 0 []).map String.mk

/-- Go `strings.EqualFold(s, "true")`: equality under simple case folding; the
letters of `true` fold only with their ASCII capitals. -/
def EqualFoldTrue (s : String) : Bool :=
  s.data.map Char.toLower == "true".data

/-! ## `listToSlice` -/

/-- Source `listToSlice`: drop all whitespace, then split on commas. -/
def listToSlice (str : String) : List String :=
  let str := Join (Fields str) ""
  Split str ","

/-! ## Standard library: `strconv.Atoi` -/

/-- The two error kinds of `strconv.NumError`. -/
inductive NumError
  | ErrSyntax
  | ErrRange
  deriving DecidableEq, Repr

/-- The largest `uint64`. -/
def maxUint64 : Nat := 2 ^ 64 - 1

/-- The digit loop of `strconv.ParseUint(s, 10, 64)`: a byte that is not a
decimal digit is a syntax error (value 0); a value that leaves the `uint64`
range is a range error (value `maxUint64`), reported where it is detected. -/
def parseUintLoop : List Char → Nat → Nat × Option NumError
  | [], n => (n, none)
  | c :: cs, n =>
    if 48 ≤ c.toNat ∧ c.toNat ≤ 57 then
      if n ≥ maxUint64 / 10 + 1 then (maxUint64, some NumError.ErrRange)
      else
        let n1 := n * 10 + (c.toNat - 48)
        if n1 > maxUint64 then (maxUint64, some NumError.ErrRange)
        else parseUintLoop cs n1
    else (0, some NumError.ErrSyntax)

/-- Go `strconv.ParseUint(s, 10, 64)`: the empty string is a syntax error. -/
def ParseUint (s : List Char) : Nat × Option NumError :=
  if s.isEmpty then (0, some NumError.ErrSyntax) else parseUintLoop s 0

/-- Go `strconv.Atoi` on a 64-bit platform, that is `strconv.ParseInt(s, 10, 0)`
(the fast path for short inputs returns the same results): an optional sign,
then decimal digits. The pair is the returned `int` and the returned error
(`none` for `nil`); a syntax error returns 0, a range error the nearest bound. -/
def Atoi (s : String) : Int × Option NumError :=
  match s.data with
  | [] => (0, some NumError.ErrSyntax)
  | c :: cs =>
    let neg : Bool := c.toNat == 45
    let body : List Char := if c.toNat == 43 ∨ c.toNat == 45 then cs else c :: cs
    let r := ParseUint body
    if r.2 = some NumError.ErrSyntax then (0, some NumError.ErrSyntax)
    else if !neg ∧ r.1 ≥ 2 ^ 63 then ((2 : Int) ^ 63 - 1, some NumError.ErrRange)
    else if neg ∧ r.1 > 2 ^ 63 then (-(2 : Int) ^ 63, some NumError.ErrRange)
    else (if neg then -(r.1 : Int) else (r.1 : Int), none)

/-! ## What the specification calls a base-10 integer -/

/-- A decimal digit, `0` to `9`. -/
def isDecimalDigit (c : Char) : Bool := 48 ≤ c.toNat && c.toNat ≤ 57

/-- The number that the digits `ds` denote, most significant first, after the
digits already read have given `n`. -/
def decimalValueFrom (ds : List Char) (n : Nat) : Nat :=
  ds.foldl (fun a c => a * 10 + (c.toNat - 48)) n

/-- The number a list of decimal digits denotes. -/
def decimalValue (ds : List Char) : Nat := decimalValueFrom ds 0

/-- The string `s` is the base-10 notation of the integer `n`: an optional sign
`+` or `-`, then one or more decimal digits. -/
def IsBase10Integer (s : String) (n : Int) : Prop :=
  ∃ ds : List Char, ds ≠ [] ∧ (∀ c ∈ ds, isDecimalDigit c = true) ∧
    ((s.data = ds ∧ n = (decimalValue ds : Int)) ∨
     (s.data = Char.ofNat 43 :: ds ∧ n = (decimalValue ds : Int)) ∨
     (s.data = Char.ofNat 45 :: ds ∧ n = -(decimalValue ds : Int)))

/-! ## The environment and the external packages -/

/-- The process environment: the value of each variable that is set. -/
abbrev Env := String → Option String

/-- Go `os.Getenv`: the value of the variable, empty when it is not set. -/
def Getenv (env : Env) (name : String) : String := (env name).getD ""

/-- Source constant `PREFIX_PROD`. -/
def PREFIX_PROD : String := "[LE] "

/-- Source constant `PREFIX_STAGING`. -/
def PREFIX_STAGING : String := "[LE-TESTING] "

/-- The fatal errors `context.go` raises through `logrus.Fatalf`, one per call
site, with the arguments of the format string. -/
inductive Fatal
  | requiredNotSet (name : String)
  | termsNotAccepted
  | invalidDomains (value : String)
  | invalidRenewalTime (value : String)
  | invalidApiVersion (value : String)
  | rancherApi (err : String)
  | letsEncryptClient (err : String)
  deriving DecidableEq, Repr

/-- The message each `logrus.Fatalf` call site formats. -/
def Fatal.message : Fatal → String
  | .requiredNotSet name => "Required environment variable not set: " ++ name
  | .termsNotAccepted => "Terms of service were not accepted"
  | .invalidDomains value => "Invalid value for DOMAINS: " ++ value
  | .invalidRenewalTime value => "Invalid value for RENEWAL_TIME: " ++ value
  | .invalidApiVersion value => "Invalid value for API_VERSION: " ++ value
  | .rancherApi err => "Could not connect to Rancher API: " ++ err
  | .letsEncryptClient err => "LetsEncrypt client: " ++ err

/-- How a run of `InitContext` can stop early: a fatal error (the process
exits), or the run-time panic of an index out of range. -/
inductive Halt
  | fatal (f : Fatal)
  | indexOutOfRange
  deriving DecidableEq, Repr

/-- Type `letsencrypt.ProviderOpts`, as `InitContext` fills it. -/
structure ProviderOpts where
  Provider : String
  CloudflareEmail : String
  CloudflareKey : String
  DoAccessToken : String
  AwsAccessKey : String
  AwsSecretKey : String
  DNSimpleEmail : String
  DNSimpleKey : String
  DynCustomerName : String
  DynUserName : String
  DynPassword : String
  deriving DecidableEq, Repr

/-- The packages `rancher` and `letsencrypt`, which `context.go` only calls:
the two client constructors (an error is its text) and `Client.EnableDebug`.
`R` and `A` are the types of the Rancher and the ACME client. -/
structure Externals (R A : Type) where
  rancherNewClient : String → String → String → Except String R
  letsencryptNewClient : String → String → String → ProviderOpts → Except String A
  enableDebug : A → A

/-- The calls `InitContext` makes out of `context.go` that act on the outside
world or on process-wide state, as recorded in order. -/
inductive Call
  | rancherNewClient (url accessKey secretKey : String)
  | letsencryptNewClient (email keyType apiVersion : String) (opts : ProviderOpts)
  | logrusSetLevelDebug
  | acmeEnableDebug
  deriving DecidableEq, Repr

/-- Source type `Context`. The two client pointers may be nil; `ExpiryDate`
(a `time.Time`) is kept as a number, `InitContext` does not touch it. -/
structure Context (R A : Type) where
  Acme : Option A
  Rancher : Option R
  Domains : List String
  RenewalTime : Int
  ExpiryDate : Int
  RancherCertId : String
  RancherCertName : String
  Debug : Bool
  deriving DecidableEq, Repr

/-- What a run of `InitContext` leaves: the calls made, and either the
initialised context or the reason the run stopped. -/
structure Outcome (R A : Type) where
  calls : List Call
  result : Except Halt (Context R A)

/-! ## `getEnvOption` and `InitContext` -/

/-- Source `getEnvOption`: the value of the variable; fatal when a required
variable is empty or not set (a string has length 0 in bytes exactly when it has
no characters). -/
def getEnvOption (env : Env) (name : String) (required : Bool) : Except Fatal String :=
  let val := Getenv env name
  if required && val.length == 0 then Except.error (Fatal.requiredNotSet name)
  else Except.ok val

/-- The twelve local variables `InitContext` reads first (source lines 38-49). -/
structure Params where
  cattleUrl : String
  cattleApiKey : String
  cattleSecretKey : String
  debugParam : String
  eulaParam : String
  apiVerParam : String
  emailParam : String
  domainParam : String
  keyTypeParam : String
  certNameParam : String
  timeParam : String
  providerParam : String
  deriving DecidableEq, Repr

/-- Source lines 38-49 of `InitContext`: the twelve `getEnvOption` calls, in
order; the first missing required variable ends the run. -/
def readParams (env : Env) : Except Fatal Params := do
  let cattleUrl ← getEnvOption env "CATTLE_URL" true
  let cattleApiKey ← getEnvOption env "CATTLE_ACCESS_KEY" true
  let cattleSecretKey ← getEnvOption env "CATTLE_SECRET_KEY" true
  let debugParam ← getEnvOption env "DEBUG" false
  let eulaParam ← getEnvOption env "EULA" false
  let apiVerParam ← getEnvOption env "API_VERSION" true
  let emailParam ← getEnvOption env "EMAIL" true
  let domainParam ← getEnvOption env "DOMAINS" true
  let keyTypeParam ← getEnvOption env "PUBLIC_KEY_TYPE" true
  let certNameParam ← getEnvOption env "CERT_NAME" false
  let timeParam ← getEnvOption env "RENEWAL_TIME" true
  let providerParam ← getEnvOption env "PROVIDER" true
  pure { cattleUrl, cattleApiKey, cattleSecretKey, debugParam, eulaParam, apiVerParam,
         emailParam, domainParam, keyTypeParam, certNameParam, timeParam, providerParam }

/-- Source lines 69-76 of `InitContext`: the `switch` on `apiVerParam`, which
derives the default certificate name from `c.Domains[0]`. -/
def certAutoName (apiVerParam : String) (domains : List String) : Except Halt String :=
  if apiVerParam = "Production" then
    match domains[0]? with
    | some d => Except.ok (PREFIX_PROD ++ d)
    | none => Except.error Halt.indexOutOfRange
  else if apiVerParam = "Sandbox" then
    match domains[0]? with
    | some d => Except.ok (PREFIX_STAGING ++ d)
    | none => Except.error Halt.indexOutOfRange
  else Except.error (Halt.fatal (Fatal.invalidApiVersion apiVerParam))

/-- Source lines 92-104 of `InitContext`: the provider options, read from the
environment. -/
def providerOpts (env : Env) (providerParam : String) : ProviderOpts :=
  { Provider := providerParam
    CloudflareEmail := Getenv env "CLOUDFLARE_EMAIL"
    CloudflareKey := Getenv env "CLOUDFLARE_KEY"
    DoAccessToken := Getenv env "DO_ACCESS_TOKEN"
    AwsAccessKey := Getenv env "AWS_ACCESS_KEY"
    AwsSecretKey := Getenv env "AWS_SECRET_KEY"
    DNSimpleEmail := Getenv env "DNSIMPLE_EMAIL"
    DNSimpleKey := Getenv env "DNSIMPLE_KEY"
    DynCustomerName := Getenv env "DYN_CUSTOMER_NAME"
    DynUserName := Getenv env "DYN_USER_NAME"
    DynPassword := Getenv env "DYN_PASSWORD" }

/-- Source lines 87-117 of `InitContext`: the two client constructors, then the
debug mode. -/
def connectClients {R A : Type} (ext : Externals R A) (env : Env) (p : Params)
    (c : Context R A) : Outcome R A :=
  let call1 := Call.rancherNewClient p.cattleUrl p.cattleApiKey p.cattleSecretKey
  match ext.rancherNewClient p.cattleUrl p.cattleApiKey p.cattleSecretKey with
  | Except.error e => ⟨[call1], Except.error (Halt.fatal (Fatal.rancherApi e))⟩
  | Except.ok r =>
    let c := { c with Rancher := some r }
    let opts := providerOpts env p.providerParam
    let call2 := Call.letsencryptNewClient p.emailParam p.keyTypeParam p.apiVerParam opts
    match ext.letsencryptNewClient p.emailParam p.keyTypeParam p.apiVerParam opts with
    | Except.error e =>
      ⟨[call1, call2], Except.error (Halt.fatal (Fatal.letsEncryptClient e))⟩
    | Except.ok a =>
      let c := { c with Acme := some a }
      if EqualFoldTrue p.debugParam then
        ⟨[call1, call2, Call.logrusSetLevelDebug, Call.acmeEnableDebug],
          Except.ok { c with Debug := true, Acme := some (ext.enableDebug a) }⟩
      else ⟨[call1, call2], Except.ok c⟩

/-- Source `Context.InitContext`, run on the receiver `c` in the environment
`env` against the external packages `ext`. The conversions
`letsencrypt.ApiVersion`, `letsencrypt.KeyType` and `letsencrypt.DnsProvider`
(source lines 78, 79, 93) retype a string and leave it as it is. -/
def InitContext {R A : Type} (ext : Externals R A) (env : Env) (c : Context R A) :
    Outcome R A :=
  match readParams env with
  | Except.error f => ⟨[], Except.error (Halt.fatal f)⟩
  | Except.ok p =>
    if p.eulaParam ≠ "Yes" then ⟨[], Except.error (Halt.fatal Fatal.termsNotAccepted)⟩
    else
      let c := { c with Domains := listToSlice p.domainParam }
      if c.Domains.length == 0 then
        ⟨[], Except.error (Halt.fatal (Fatal.invalidDomains p.domainParam))⟩
      else
        let c := { c with RenewalTime := (Atoi p.timeParam).1 }
        if (Atoi p.timeParam).2.isSome ∨ c.RenewalTime < (0 : Int) ∨ c.RenewalTime > (23 : Int) then
          ⟨[], Except.error (Halt.fatal (Fatal.invalidRenewalTime p.timeParam))⟩
        else
          match certAutoName p.apiVerParam c.Domains with
          | Except.error h => ⟨[], Except.error h⟩
          | Except.ok auto =>
            let c := { c with RancherCertName :=
              if p.certNameParam.length ≠ 0 then p.certNameParam else auto }
            connectClients ext env p c

/-- The nine variables `InitContext` reads as required, in the order of the
source. -/
def requiredVars : List String :=
  ["CATTLE_URL", "CATTLE_ACCESS_KEY", "CATTLE_SECRET_KEY", "API_VERSION", "EMAIL",
   "DOMAINS", "PUBLIC_KEY_TYPE", "RENEWAL_TIME", "PROVIDER"]

/-- The renewal-hour check of `InitContext` (source line 63) passes on `t`:
`Atoi` returns no error and a value from 0 to 23. -/
def renewalTimeOk (t : String) : Prop :=
  (Atoi t).2 = none ∧ (0 : Int) ≤ (Atoi t).1 ∧ (Atoi t).1 ≤ (23 : Int)

/-- The values `readParams` returns when no required variable is missing. -/
def paramsOf (env : Env) : Params :=
  { cattleUrl := Getenv env "CATTLE_URL"
    cattleApiKey := Getenv env "CATTLE_ACCESS_KEY"
    cattleSecretKey := Getenv env "CATTLE_SECRET_KEY"
    debugParam := Getenv env "DEBUG"
    eulaParam := Getenv env "EULA"
    apiVerParam := Getenv env "API_VERSION"
    emailParam := Getenv env "EMAIL"
    domainParam := Getenv env "DOMAINS"
    keyTypeParam := Getenv env "PUBLIC_KEY_TYPE"
    certNameParam := Getenv env "CERT_NAME"
    timeParam := Getenv env "RENEWAL_TIME"
    providerParam := Getenv env "PROVIDER" }

/-! ## Sample inputs -/

/-- External packages whose constructors always succeed. -/
def okExternals : Externals Unit Unit :=
  { rancherNewClient := fun _ _ _ => Except.ok ()
    letsencryptNewClient := fun _ _ _ _ => Except.ok ()
    enableDebug := fun a => a }

/-- The zero value of `Context`. -/
def zeroContext : Context Unit Unit :=
  { Acme := none, Rancher := none, Domains := [], RenewalTime := 0, ExpiryDate := 0,
    RancherCertId := "", RancherCertName := "", Debug := false }

/-- The environment that sets exactly the listed variables. -/
def envOf (vars : List (String × String)) : Env := fun name => vars.lookup name

/-- The variables of a complete, valid environment; DEBUG and CERT_NAME are
not set. -/
def sampleVars : List (String × String) :=
  [("CATTLE_URL", "http://rancher"), ("CATTLE_ACCESS_KEY", "k"), ("CATTLE_SECRET_KEY", "s"),
    ("EULA", "Yes"), ("API_VERSION", "Production"), ("EMAIL", "a@b.c"),
    ("DOMAINS", "example.com"), ("PUBLIC_KEY_TYPE", "RSA-2048"), ("RENEWAL_TIME", "3"),
    ("PROVIDER", "Route53")]

/-- The environment of `sampleVars` without EMAIL. -/
def envWithoutEmail : Env :=
  envOf (sampleVars.filter (fun v => v.1 != "EMAIL"))

/-- The environment of `sampleVars` without PROVIDER. -/
def envWithoutProvider : Env :=
  envOf (sampleVars.filter (fun v => v.1 != "PROVIDER"))

/-- A complete, valid environment, with the given values for four variables. -/
def sampleEnv (eula apiVersion domains renewalTime : String) : Env :=
  envOf [("CATTLE_URL", "http://rancher"), ("CATTLE_ACCESS_KEY", "k"),
    ("CATTLE_SECRET_KEY", "s"), ("EULA", eula), ("API_VERSION", apiVersion),
    ("EMAIL", "a@b.c"), ("DOMAINS", domains), ("PUBLIC_KEY_TYPE", "RSA-2048"),
    ("RENEWAL_TIME", renewalTime), ("PROVIDER", "Route53")]

/-! ## Auxiliary definitions for the proofs -/

/-- Whitespace removal, the effect of `Fields` followed by `Join` with `""`. -/
def stripSpace (s : List Char) : List Char := s.filter (fun c => !isSpace c)

/-- The characters of `Join l sep`, computed on character lists. -/
def joinData : List (List Char) → List Char → List Char
  | [], _ => []
  | [a], _ => a
  | a :: b :: rest, sep => a ++ sep ++ joinData (b :: rest) sep

/-- A string without commas and without whitespace. -/
def IsToken (t : String) : Prop := ∀ c ∈ t.data, c ≠ comma ∧ isSpace c = false

/-- The last steps of `Atoi`, from the sign and the result of `ParseUint`. -/
def atoiFinish (neg : Bool) (r : Nat × Option NumError) : Int × Option NumError :=
  if r.2 = some NumError.ErrSyntax then (0, some NumError.ErrSyntax)
  else if !neg ∧ r.1 ≥ 2 ^ 63 then ((2 : Int) ^ 63 - 1, some NumError.ErrRange)
  else if neg ∧ r.1 > 2 ^ 63 then (-(2 : Int) ^ 63, some NumError.ErrRange)
  else (if neg then -(r.1 : Int) else (r.1 : Int), none)

/-! ## Lemmas: `strings` -/

theorem comma_data : ("," : String).data = [comma] := by decide

theorem isSpace_comma : isSpace comma = false := by decide

theorem fieldsLoop_join (s cur : List Char) :
    (fieldsLoop s cur).flatten = cur.reverse ++ stripSpace s := by
  induction s generalizing cur with
  | nil => cases cur <;> simp [fieldsLoop, stripSpace]
  | cons c cs ih =>
    by_cases hc : isSpace c = true
    · cases cur <;> simp [fieldsLoop, stripSpace, hc, ih]
    · simp [fieldsLoop, stripSpace, hc, ih]

theorem Join_data (l : List String) (sep : String) :
    (Join l sep).data = joinData (l.map String.data) sep.data := by
  induction l with
  | nil => rfl
  | cons a t ih =>
    cases t with
    | nil => rfl
    | cons b rest => simp [Join, joinData, ih, String.data_append]

theorem joinData_nil_sep (l : List (List Char)) : joinData l [] = l.flatten := by
  induction l with
  | nil => rfl
  | cons a t ih =>
    cases t with
    | nil => simp [joinData]
    | cons b rest => simp [joinData, ih]

theorem Join_Fields_data (str : String) :
    (Join (Fields str) "").data = stripSpace str.data := by
  rw [Join_data]
  have h : ("" : String).data = [] := rfl
  rw [h, joinData_nil_sep, Fields, List.map_map]
  have h2 : (String.data ∘ String.mk) = id := by funext x; rfl
  rw [h2, List.map_id, fieldsLoop_join]
  simp

theorem stripSpace_joinData (l : List (List Char)) (sep : List Char) :
    stripSpace (joinData l sep) = joinData (l.map stripSpace) (stripSpace sep) := by
  induction l with
  | nil => rfl
  | cons a t ih =>
    cases t with
    | nil => rfl
    | cons b rest =>
      simp only [joinData, List.map] at ih ⊢
      simp only [stripSpace, List.filter_append] at ih ⊢
      rw [ih]

theorem stripSpace_eq_self (s : List Char) (h : ∀ c ∈ s, isSpace c = false) :
    stripSpace s = s := by
  simp only [stripSpace, List.filter_eq_self]
  intro c hc
  simp [h c hc]

theorem stripSpace_eq_nil (s : List Char) (h : ∀ c ∈ s, isSpace c = true) :
    stripSpace s = [] := by
  simp only [stripSpace, List.filter_eq_nil_iff]
  intro c hc
  simp [h c hc]

/-- The loop of `Split` for the separator `","`, character by character. -/
theorem splitLoop_comma_cons (c : Char) (cs cur : List Char) :
    splitLoop [comma] (c :: cs) 0 cur =
      if c = comma then cur.reverse :: splitLoop [comma] cs 0 []
      else splitLoop [comma] cs 0 (c :: cur) := by
  by_cases h : c = comma
  · subst h; simp [splitLoop, List.isPrefixOf]
  · have h2 : ¬ comma = c := fun e => h e.symm
    simp [splitLoop, List.isPrefixOf, h, h2]

theorem splitLoop_comma_length (s cur : List Char) :
    (splitLoop [comma] s 0 cur).length = s.count comma + 1 := by
  induction s generalizing cur with
  | nil => simp [splitLoop]
  | cons c cs ih =>
    rw [splitLoop_comma_cons]
    by_cases h : c = comma
    · subst h; simp [ih]
    · have h2 : ¬ (c == comma) = true := by simpa using h
      simp [h, ih, List.count_cons, h2]

theorem splitLoop_comma_free (t rest cur : List Char) (h : comma ∉ t) :
    splitLoop [comma] (t ++ rest) 0 cur = splitLoop [comma] rest 0 (t.reverse ++ cur) := by
  induction t generalizing cur with
  | nil => simp
  | cons c cs ih =>
    have hc : ¬ c = comma := fun e => h (by simp [e])
    have hcs : comma ∉ cs := fun e => h (by simp [e])
    rw [List.cons_append, splitLoop_comma_cons, if_neg hc, ih _ hcs]
    simp

theorem splitLoop_joinData (l : List (List Char)) (a cur : List Char)
    (h : ∀ t ∈ a :: l, comma ∉ t) :
    splitLoop [comma] (joinData (a :: l) [comma]) 0 cur = (cur.reverse ++ a) :: l := by
  induction l generalizing a cur with
  | nil =>
    have := splitLoop_comma_free a [] cur (h a (by simp))
    simp only [List.append_nil] at this
    simp [joinData, this, splitLoop]
  | cons b rest ih =>
    have ha : comma ∉ a := h a (by simp)
    have hrest : ∀ t ∈ b :: rest, comma ∉ t := fun t ht => h t (by simp [ht])
    simp only [joinData, List.append_assoc]
    rw [splitLoop_comma_free a _ cur ha, List.singleton_append, splitLoop_comma_cons,
      if_pos rfl, ih b [] hrest]
    simp

theorem listToSlice_eq (str : String) :
    listToSlice str = (splitLoop [comma] (stripSpace str.data) 0 []).map String.mk := by
  have h : ("," : String).data.isEmpty = false := rfl
  simp only [listToSlice, Split, h, Join_Fields_data, comma_data]
  rfl

theorem count_comma_stripSpace (s : List Char) :
    (stripSpace s).count comma = s.count comma := by
  induction s with
  | nil => rfl
  | cons c cs ih =>
    by_cases hc : isSpace c = true
    · have hne : (c == comma) = false := by
        cases h : c == comma
        · rfl
        · have := eq_of_beq h
          rw [this, isSpace_comma] at hc
          cases hc
      simp only [stripSpace] at ih ⊢
      simp [List.filter_cons, hc, List.count_cons, hne, ih]
    · simp only [stripSpace] at ih ⊢
      simp [List.filter_cons, hc, List.count_cons, ih]

theorem listToSlice_length (str : String) :
    (listToSlice str).length = str.data.count comma + 1 := by
  rw [listToSlice_eq, List.length_map, splitLoop_comma_length, count_comma_stripSpace]

theorem map_mk_map_data (l : List String) : (l.map String.data).map String.mk = l := by
  induction l with
  | nil => rfl
  | cons a t ih => rw [List.map_cons, List.map_cons, ih]

/-- Parsing a list joined with a separator that is one comma among whitespace
gives the list back; with a separator of whitespace only, the concatenation. -/
theorem listToSlice_Join (tokens : List String) (sep : String) (hne : tokens ≠ [])
    (htok : ∀ t ∈ tokens, IsToken t) :
    (stripSpace sep.data = [comma] → listToSlice (Join tokens sep) = tokens) ∧
    (stripSpace sep.data = [] → listToSlice (Join tokens sep) = [Join tokens ""]) := by
  have hstrip : (tokens.map String.data).map stripSpace = tokens.map String.data := by
    rw [List.map_map]
    apply List.map_congr_left
    intro t ht
    exact stripSpace_eq_self _ (fun c hc => (htok t ht c hc).2)
  obtain ⟨a, l, rfl⟩ := List.exists_cons_of_ne_nil hne
  constructor
  · intro hsep
    rw [listToSlice_eq, Join_data, stripSpace_joinData, hstrip, hsep]
    have hcomma : ∀ t ∈ a.data :: l.map String.data, comma ∉ t := by
      intro t ht hmem
      rw [← List.map_cons, List.mem_map] at ht
      obtain ⟨u, hu, rfl⟩ := ht
      exact (htok u hu comma hmem).1 rfl
    rw [List.map_cons, splitLoop_joinData _ _ _ hcomma]
    simpa using map_mk_map_data l
  · intro hsep
    rw [listToSlice_eq, Join_data, stripSpace_joinData, hstrip, hsep, joinData_nil_sep]
    have hfree : comma ∉ (List.map String.data (a :: l)).flatten := by
      intro hmem
      rw [List.mem_flatten] at hmem
      obtain ⟨t, ht, hc⟩ := hmem
      rw [List.mem_map] at ht
      obtain ⟨u, hu, rfl⟩ := ht
      exact (htok u hu comma hc).1 rfl
    have := splitLoop_comma_free _ [] [] hfree
    simp only [List.append_nil] at this
    rw [this]
    simp only [splitLoop, List.reverse_reverse, List.map_cons, List.map_nil]
    congr 1
    apply String.ext
    have h0 : ("" : String).data = [] := rfl
    rw [Join_data, h0, joinData_nil_sep]
    simp

/-! ## Lemmas: `strconv.Atoi` -/

theorem le_decimalValueFrom (ds : List Char) (n : Nat) : n ≤ decimalValueFrom ds n := by
  induction ds generalizing n with
  | nil => simp [decimalValueFrom]
  | cons c cs ih =>
    have := ih (n * 10 + (c.toNat - 48))
    simp only [decimalValueFrom, List.foldl_cons] at this ⊢
    omega

theorem parseUintLoop_digits (ds : List Char) (n : Nat) (hn : n ≤ maxUint64)
    (h : ∀ c ∈ ds, isDecimalDigit c = true) :
    parseUintLoop ds n =
      if decimalValueFrom ds n ≤ maxUint64 then (decimalValueFrom ds n, none)
      else (maxUint64, some NumError.ErrRange) := by
  induction ds generalizing n with
  | nil =>
    simp [parseUintLoop, decimalValueFrom, hn]
  | cons c cs ih =>
    have hc : 48 ≤ c.toNat ∧ c.toNat ≤ 57 := by
      have := h c (by simp)
      simpa [isDecimalDigit] using this
    have hcs : ∀ d ∈ cs, isDecimalDigit d = true := fun d hd => h d (by simp [hd])
    have hle := le_decimalValueFrom cs (n * 10 + (c.toNat - 48))
    have hstep : decimalValueFrom (c :: cs) n = decimalValueFrom cs (n * 10 + (c.toNat - 48)) := rfl
    rw [hstep]
    simp only [parseUintLoop, hc, and_self, if_true]
    by_cases h1 : n ≥ maxUint64 / 10 + 1
    · have : ¬ decimalValueFrom cs (n * 10 + (c.toNat - 48)) ≤ maxUint64 := by
        simp only [maxUint64] at h1 ⊢
        omega
      simp [h1, this]
    · by_cases h2 : n * 10 + (c.toNat - 48) > maxUint64
      · have : ¬ decimalValueFrom cs (n * 10 + (c.toNat - 48)) ≤ maxUint64 := by omega
        simp [h1, h2, this]
      · simp only [h1, h2, if_false]
        exact ih _ (by omega) hcs

theorem parseUintLoop_nondigit (ds : List Char) (n : Nat)
    (h : ¬ ∀ c ∈ ds, isDecimalDigit c = true) :
    parseUintLoop ds n = (0, some NumError.ErrSyntax) ∨
      parseUintLoop ds n = (maxUint64, some NumError.ErrRange) := by
  induction ds generalizing n with
  | nil => exact absurd (fun c hc => by cases hc) h
  | cons c cs ih =>
    by_cases hc : 48 ≤ c.toNat ∧ c.toNat ≤ 57
    · have hcs : ¬ ∀ d ∈ cs, isDecimalDigit d = true := by
        intro hall
        apply h
        intro d hd
        rcases List.mem_cons.mp hd with rfl | hd
        · simpa [isDecimalDigit] using hc
        · exact hall d hd
      simp only [parseUintLoop, hc, and_self, if_true]
      by_cases h1 : n ≥ maxUint64 / 10 + 1
      · simp [h1]
      · by_cases h2 : n * 10 + (c.toNat - 48) > maxUint64
        · simp [h1, h2]
        · simp only [h1, h2, if_false]
          exact ih _ hcs
    · left
      simp only [parseUintLoop, hc, if_false]

/-- The result of `Atoi` in terms of what `ParseUint` returns on the digits. -/
theorem Atoi_cons (s : String) (c : Char) (cs : List Char) (hs : s.data = c :: cs) :
    Atoi s = atoiFinish (c.toNat == 45)
      (ParseUint (if c.toNat == 43 ∨ c.toNat == 45 then cs else c :: cs)) := by
  unfold Atoi atoiFinish
  rw [hs]

theorem atoiFinish_error (neg : Bool) (r : Nat × Option NumError)
    (h : r = (0, some NumError.ErrSyntax) ∨ r = (maxUint64, some NumError.ErrRange)) :
    (atoiFinish neg r).2 ≠ none := by
  rcases h with rfl | rfl
  · simp [atoiFinish]
  · cases neg <;> simp [atoiFinish, maxUint64]

theorem atoiFinish_plus (v : Nat) :
    atoiFinish false (if v ≤ maxUint64 then (v, none) else (maxUint64, some NumError.ErrRange)) =
      if -(2 : Int) ^ 63 ≤ (v : Int) ∧ (v : Int) < (2 : Int) ^ 63 then ((v : Int), none)
      else (if (v : Int) < 0 then -(2 : Int) ^ 63 else (2 : Int) ^ 63 - 1,
        some NumError.ErrRange) := by
  by_cases h1 : v < 2 ^ 63
  · have hl : v ≤ maxUint64 := by unfold maxUint64; omega
    have hr : -(2 : Int) ^ 63 ≤ (v : Int) ∧ (v : Int) < (2 : Int) ^ 63 := by omega
    rw [if_pos hl, if_pos hr]
    simp only [atoiFinish]
    rw [if_neg (by simp), if_neg (by simp; omega), if_neg (by simp)]
    simp
  · have hr : ¬ (-(2 : Int) ^ 63 ≤ (v : Int) ∧ (v : Int) < (2 : Int) ^ 63) := by omega
    have h0 : ¬ ((v : Int) < 0) := by omega
    rw [if_neg hr, if_neg h0]
    by_cases h2 : v ≤ maxUint64
    · rw [if_pos h2]
      simp only [atoiFinish]
      rw [if_neg (by simp), if_pos (by simp; omega)]
    · rw [if_neg h2]
      simp only [atoiFinish]
      rw [if_neg (by simp), if_pos (by simp [maxUint64])]

theorem atoiFinish_minus (v : Nat) :
    atoiFinish true (if v ≤ maxUint64 then (v, none) else (maxUint64, some NumError.ErrRange)) =
      if -(2 : Int) ^ 63 ≤ -(v : Int) ∧ -(v : Int) < (2 : Int) ^ 63 then (-(v : Int), none)
      else (if -(v : Int) < 0 then -(2 : Int) ^ 63 else (2 : Int) ^ 63 - 1,
        some NumError.ErrRange) := by
  by_cases h1 : v ≤ 2 ^ 63
  · have hl : v ≤ maxUint64 := by unfold maxUint64; omega
    have hr : -(2 : Int) ^ 63 ≤ -(v : Int) ∧ -(v : Int) < (2 : Int) ^ 63 := by omega
    rw [if_pos hl, if_pos hr]
    simp only [atoiFinish]
    rw [if_neg (by simp), if_neg (by simp), if_neg (by simp; omega)]
    simp
  · have hr : ¬ (-(2 : Int) ^ 63 ≤ -(v : Int) ∧ -(v : Int) < (2 : Int) ^ 63) := by omega
    have h0 : -(v : Int) < 0 := by omega
    rw [if_neg hr, if_pos h0]
    by_cases h2 : v ≤ maxUint64
    · rw [if_pos h2]
      simp only [atoiFinish]
      rw [if_neg (by simp), if_neg (by simp), if_pos (by simp; omega)]
    · rw [if_neg h2]
      simp only [atoiFinish]
      rw [if_neg (by simp), if_neg (by simp), if_pos (by simp [maxUint64])]

theorem ParseUint_digits (ds : List Char) (hne : ds ≠ [])
    (hdig : ∀ c ∈ ds, isDecimalDigit c = true) :
    ParseUint ds =
      if decimalValue ds ≤ maxUint64 then (decimalValue ds, none)
      else (maxUint64, some NumError.ErrRange) := by
  unfold ParseUint
  have : ds.isEmpty = false := by cases ds <;> simp_all
  rw [this]
  exact parseUintLoop_digits ds 0 (by decide) hdig

/-- On the notation of an integer, `Atoi` returns the integer when it fits an
`int`, and otherwise a range error with the nearest bound. -/
theorem Atoi_of_base10 (s : String) (n : Int) (h : IsBase10Integer s n) :
    Atoi s =
      if -(2 : Int) ^ 63 ≤ n ∧ n < (2 : Int) ^ 63 then (n, none)
      else (if n < 0 then -(2 : Int) ^ 63 else (2 : Int) ^ 63 - 1, some NumError.ErrRange) := by
  obtain ⟨ds, hne, hdig, hcase⟩ := h
  have hP := ParseUint_digits ds hne hdig
  rcases hcase with ⟨hs, hn⟩ | ⟨hs, hn⟩ | ⟨hs, hn⟩
  · obtain ⟨c, cs, rfl⟩ := List.exists_cons_of_ne_nil hne
    have hc : 48 ≤ c.toNat ∧ c.toNat ≤ 57 := by
      have := hdig c (by simp)
      simpa [isDecimalDigit] using this
    have h43 : (c.toNat == 43) = false := by simp; omega
    have h45 : (c.toNat == 45) = false := by simp; omega
    rw [Atoi_cons s c cs hs]
    simp only [h43, h45, Bool.false_eq_true, or_self, if_false, hP]
    subst hn
    exact atoiFinish_plus _
  · rw [Atoi_cons s _ ds hs]
    have h45 : ((Char.ofNat 43).toNat == 45) = false := by decide
    have h43 : ((Char.ofNat 43).toNat == 43) = true := by decide
    simp only [h43, h45, true_or, if_true, hP]
    subst hn
    exact atoiFinish_plus _
  · rw [Atoi_cons s _ ds hs]
    have h45 : ((Char.ofNat 45).toNat == 45) = true := by decide
    simp only [h45, or_true, if_true, hP]
    subst hn
    exact atoiFinish_minus _

/-- On a string that is not the notation of an integer, `Atoi` returns an error. -/
theorem Atoi_not_base10 (s : String) (h : ∀ n, ¬ IsBase10Integer s n) :
    (Atoi s).2 ≠ none := by
  cases hs : s.data with
  | nil => simp [Atoi, hs]
  | cons c cs =>
    rw [Atoi_cons s c cs hs]
    apply atoiFinish_error
    by_cases hsign : c.toNat = 43 ∨ c.toNat = 45
    · have hbody : (if (c.toNat == 43) = true ∨ (c.toNat == 45) = true then cs else c :: cs) = cs := by
        simp [hsign]
      rw [hbody]
      have hcs : ¬ (cs ≠ [] ∧ ∀ d ∈ cs, isDecimalDigit d = true) := by
        rintro ⟨hne, hdig⟩
        have hc : c = Char.ofNat 43 ∨ c = Char.ofNat 45 := by
          rcases hsign with h1 | h1
          · left; apply Char.ext; apply UInt32.ext; simpa [Char.toNat] using h1
          · right; apply Char.ext; apply UInt32.ext; simpa [Char.toNat] using h1
        rcases hc with rfl | rfl
        · exact h _ ⟨cs, hne, hdig, Or.inr (Or.inl ⟨hs, rfl⟩)⟩
        · exact h _ ⟨cs, hne, hdig, Or.inr (Or.inr ⟨hs, rfl⟩)⟩
      by_cases hne : cs = []
      · left; subst hne; rfl
      · have hnd : ¬ ∀ d ∈ cs, isDecimalDigit d = true := fun hd => hcs ⟨hne, hd⟩
        unfold ParseUint
        have : cs.isEmpty = false := by cases cs <;> simp_all
        rw [this]
        exact parseUintLoop_nondigit cs 0 hnd
    · have hbody : (if (c.toNat == 43) = true ∨ (c.toNat == 45) = true then cs else c :: cs) = c :: cs := by
        simp [hsign]
      rw [hbody]
      have hnd : ¬ ∀ d ∈ c :: cs, isDecimalDigit d = true :=
        fun hd => h _ ⟨c :: cs, by simp, hd, Or.inl ⟨hs, rfl⟩⟩
      exact parseUintLoop_nondigit (c :: cs) 0 hnd

/-! ## Lemmas: `getEnvOption` and the checks of `InitContext` -/

theorem Getenv_eq_empty (env : Env) (name : String) :
    Getenv env name = "" ↔ env name = none ∨ env name = some "" := by
  unfold Getenv
  cases env name <;> simp

theorem length_eq_zero_iff (s : String) : (s.length == 0) = true ↔ s = "" := by
  cases s with
  | mk d =>
    cases d with
    | nil => exact ⟨fun _ => rfl, fun _ => rfl⟩
    | cons a t =>
      constructor
      · intro h
        have h2 : (t.length + 1 == 0) = true := h
        simp at h2
      · intro h
        exact absurd (congrArg String.data h) (by simp)

theorem getEnvOption_required (env : Env) (name : String) :
    getEnvOption env name true =
      if Getenv env name = "" then Except.error (Fatal.requiredNotSet name)
      else Except.ok (Getenv env name) := by
  unfold getEnvOption
  by_cases h : Getenv env name = ""
  · simp [h]
  · have : ¬ ((Getenv env name).length == 0) = true := fun e => h ((length_eq_zero_iff _).mp e)
    simp [h, this]

theorem getEnvOption_optional (env : Env) (name : String) :
    getEnvOption env name false = Except.ok (Getenv env name) := by
  simp [getEnvOption]

/-- The reading of the variables: the first required variable that is empty, in
the order of the source, is reported; with none empty, all twelve values. -/
theorem readParams_eq (env : Env) :
    readParams env =
      if Getenv env "CATTLE_URL" = "" then Except.error (Fatal.requiredNotSet "CATTLE_URL")
      else if Getenv env "CATTLE_ACCESS_KEY" = "" then
        Except.error (Fatal.requiredNotSet "CATTLE_ACCESS_KEY")
      else if Getenv env "CATTLE_SECRET_KEY" = "" then
        Except.error (Fatal.requiredNotSet "CATTLE_SECRET_KEY")
      else if Getenv env "API_VERSION" = "" then
        Except.error (Fatal.requiredNotSet "API_VERSION")
      else if Getenv env "EMAIL" = "" then Except.error (Fatal.requiredNotSet "EMAIL")
      else if Getenv env "DOMAINS" = "" then Except.error (Fatal.requiredNotSet "DOMAINS")
      else if Getenv env "PUBLIC_KEY_TYPE" = "" then
        Except.error (Fatal.requiredNotSet "PUBLIC_KEY_TYPE")
      else if Getenv env "RENEWAL_TIME" = "" then
        Except.error (Fatal.requiredNotSet "RENEWAL_TIME")
      else if Getenv env "PROVIDER" = "" then Except.error (Fatal.requiredNotSet "PROVIDER")
      else Except.ok (paramsOf env) := by
  simp only [readParams, getEnvOption_required, getEnvOption_optional]
  by_cases h1 : Getenv env "CATTLE_URL" = ""
  · simp only [h1, if_true]; rfl
  simp only [h1, if_false]
  by_cases h2 : Getenv env "CATTLE_ACCESS_KEY" = ""
  · simp only [h2, if_true]; rfl
  simp only [h2, if_false]
  by_cases h3 : Getenv env "CATTLE_SECRET_KEY" = ""
  · simp only [h3, if_true]; rfl
  simp only [h3, if_false]
  by_cases h4 : Getenv env "API_VERSION" = ""
  · simp only [h4, if_true]; rfl
  simp only [h4, if_false]
  by_cases h5 : Getenv env "EMAIL" = ""
  · simp only [h5, if_true]; rfl
  simp only [h5, if_false]
  by_cases h6 : Getenv env "DOMAINS" = ""
  · simp only [h6, if_true]; rfl
  simp only [h6, if_false]
  by_cases h7 : Getenv env "PUBLIC_KEY_TYPE" = ""
  · simp only [h7, if_true]; rfl
  simp only [h7, if_false]
  by_cases h8 : Getenv env "RENEWAL_TIME" = ""
  · simp only [h8, if_true]; rfl
  simp only [h8, if_false]
  by_cases h9 : Getenv env "PROVIDER" = ""
  · simp only [h9, if_true]; rfl
  simp only [h9, if_false]
  rfl

theorem readParams_ok (env : Env) (h : ∀ name ∈ requiredVars, Getenv env name ≠ "") :
    readParams env = Except.ok (paramsOf env) := by
  rw [readParams_eq]
  simp only [requiredVars, List.mem_cons, List.mem_singleton, forall_eq_or_imp, forall_eq,
    List.not_mem_nil, false_imp_iff, implies_true, and_true] at h
  obtain ⟨h1, h2, h3, h4, h5, h6, h7, h8, h9⟩ := h
  simp [h1, h2, h3, h4, h5, h6, h7, h8, h9]

theorem readParams_cases (env : Env) :
    (readParams env = Except.ok (paramsOf env) ∧ ∀ name ∈ requiredVars, Getenv env name ≠ "") ∨
    ∃ name ∈ requiredVars, Getenv env name = "" ∧
      readParams env = Except.error (Fatal.requiredNotSet name) := by
  by_cases h : ∀ name ∈ requiredVars, Getenv env name ≠ ""
  · exact Or.inl ⟨readParams_ok env h, h⟩
  · right
    rw [readParams_eq]
    simp only [requiredVars, List.mem_cons, List.mem_singleton, forall_eq_or_imp, forall_eq,
      List.not_mem_nil, false_imp_iff, implies_true, and_true] at h
    simp only [requiredVars, List.mem_cons, List.mem_singleton, exists_eq_or_imp, exists_eq_left,
      List.not_mem_nil, false_and, exists_false, or_false]
    split_ifs <;> simp_all

theorem listToSlice_cons (str : String) : ∃ d rest, listToSlice str = d :: rest := by
  have h := listToSlice_length str
  cases hl : listToSlice str with
  | nil => rw [hl] at h; simp at h
  | cons d rest => exact ⟨d, rest, rfl⟩

/-- The run of `InitContext` once every required variable is set and the terms
are accepted: the renewal-hour check, the `switch`, then the clients. -/
theorem InitContext_of_required {R A : Type} (ext : Externals R A) (env : Env)
    (c : Context R A) (hreq : ∀ name ∈ requiredVars, Getenv env name ≠ "")
    (heula : Getenv env "EULA" = "Yes") :
    InitContext ext env c =
      if (Atoi (Getenv env "RENEWAL_TIME")).2.isSome ∨
          (Atoi (Getenv env "RENEWAL_TIME")).1 < (0 : Int) ∨
          (Atoi (Getenv env "RENEWAL_TIME")).1 > (23 : Int) then
        ⟨[], Except.error (Halt.fatal (Fatal.invalidRenewalTime (Getenv env "RENEWAL_TIME")))⟩
      else
        match certAutoName (Getenv env "API_VERSION") (listToSlice (Getenv env "DOMAINS")) with
        | Except.error h => ⟨[], Except.error h⟩
        | Except.ok auto =>
          connectClients ext env (paramsOf env)
            { c with
              Domains := listToSlice (Getenv env "DOMAINS")
              RenewalTime := (Atoi (Getenv env "RENEWAL_TIME")).1
              RancherCertName :=
                if (Getenv env "CERT_NAME").length ≠ 0 then Getenv env "CERT_NAME" else auto } := by
  have hlen : ¬ ((listToSlice (Getenv env "DOMAINS")).length == 0) = true := by
    rw [listToSlice_length]; simp
  unfold InitContext
  rw [readParams_ok env hreq]
  simp only [paramsOf, heula, ne_eq, not_true_eq_false, if_false, hlen, Bool.false_eq_true]

theorem connectClients_calls {R A : Type} (ext : Externals R A) (env : Env) (p : Params)
    (c : Context R A) :
    (connectClients ext env p c).calls.head? =
      some (Call.rancherNewClient p.cattleUrl p.cattleApiKey p.cattleSecretKey) := by
  unfold connectClients
  cases ext.rancherNewClient p.cattleUrl p.cattleApiKey p.cattleSecretKey with
  | error e => rfl
  | ok r =>
    simp only []
    cases ext.letsencryptNewClient p.emailParam p.keyTypeParam p.apiVerParam
        (providerOpts env p.providerParam) with
    | error e => rfl
    | ok a =>
      simp only []
      split <;> rfl

theorem connectClients_ok {R A : Type} (ext : Externals R A) (env : Env) (p : Params)
    (c ctx : Context R A) (h : (connectClients ext env p c).result = Except.ok ctx) :
    ctx.Domains = c.Domains ∧ ctx.RenewalTime = c.RenewalTime ∧
    ctx.RancherCertName = c.RancherCertName ∧
    (∃ r, ext.rancherNewClient p.cattleUrl p.cattleApiKey p.cattleSecretKey = Except.ok r) ∧
    (∃ a, ext.letsencryptNewClient p.emailParam p.keyTypeParam p.apiVerParam
      (providerOpts env p.providerParam) = Except.ok a) := by
  unfold connectClients at h
  cases h1 : ext.rancherNewClient p.cattleUrl p.cattleApiKey p.cattleSecretKey with
  | error e => rw [h1] at h; simp at h
  | ok r =>
    rw [h1] at h
    simp only [] at h
    cases h2 : ext.letsencryptNewClient p.emailParam p.keyTypeParam p.apiVerParam
        (providerOpts env p.providerParam) with
    | error e => rw [h2] at h; simp at h
    | ok a =>
      rw [h2] at h
      simp only [] at h
      split at h
      · simp only [Except.ok.injEq] at h
        subst h
        exact ⟨rfl, rfl, rfl, ⟨r, rfl⟩, ⟨a, rfl⟩⟩
      · simp only [Except.ok.injEq] at h
        subst h
        exact ⟨rfl, rfl, rfl, ⟨r, rfl⟩, ⟨a, rfl⟩⟩

theorem connectClients_succeeds {R A : Type} (ext : Externals R A) (env : Env) (p : Params)
    (c : Context R A) (r : R) (a : A)
    (h1 : ext.rancherNewClient p.cattleUrl p.cattleApiKey p.cattleSecretKey = Except.ok r)
    (h2 : ext.letsencryptNewClient p.emailParam p.keyTypeParam p.apiVerParam
      (providerOpts env p.providerParam) = Except.ok a) :
    ∃ ctx, (connectClients ext env p c).result = Except.ok ctx := by
  unfold connectClients
  rw [h1]
  simp only []
  rw [h2]
  simp only []
  split
  · exact ⟨_, rfl⟩
  · exact ⟨_, rfl⟩

theorem connectClients_error {R A : Type} (ext : Externals R A) (env : Env) (p : Params)
    (c : Context R A) (h : Halt) (he : (connectClients ext env p c).result = Except.error h) :
    ∃ e, h = Halt.fatal (Fatal.rancherApi e) ∨ h = Halt.fatal (Fatal.letsEncryptClient e) := by
  unfold connectClients at he
  cases h1 : ext.rancherNewClient p.cattleUrl p.cattleApiKey p.cattleSecretKey with
  | error e =>
    rw [h1] at he
    simp only [Except.error.injEq] at he
    exact ⟨e, Or.inl he.symm⟩
  | ok r =>
    rw [h1] at he
    simp only [] at he
    cases h2 : ext.letsencryptNewClient p.emailParam p.keyTypeParam p.apiVerParam
        (providerOpts env p.providerParam) with
    | error e =>
      rw [h2] at he
      simp only [Except.error.injEq] at he
      exact ⟨e, Or.inr he.symm⟩
    | ok a =>
      rw [h2] at he
      simp only [] at he
      split at he <;> simp at he

theorem renewalTimeOk_iff (t : String) :
    renewalTimeOk t ↔
      ¬ ((Atoi t).2.isSome = true ∨ (Atoi t).1 < (0 : Int) ∨ (Atoi t).1 > (23 : Int)) := by
  unfold renewalTimeOk
  cases (Atoi t).2 <;> simp

/-- Every run of `InitContext` ends in one of five ways: at a missing required
variable, at the terms, at the renewal hour, at the `switch`, or in the client
constructors, which it reaches with the context filled in. -/
theorem InitContext_cases {R A : Type} (ext : Externals R A) (env : Env) (c : Context R A) :
    (∃ name ∈ requiredVars, Getenv env name = "" ∧
      InitContext ext env c = ⟨[], Except.error (Halt.fatal (Fatal.requiredNotSet name))⟩) ∨
    ((∀ name ∈ requiredVars, Getenv env name ≠ "") ∧ Getenv env "EULA" ≠ "Yes" ∧
      InitContext ext env c = ⟨[], Except.error (Halt.fatal Fatal.termsNotAccepted)⟩) ∨
    ((∀ name ∈ requiredVars, Getenv env name ≠ "") ∧ Getenv env "EULA" = "Yes" ∧
      ¬ renewalTimeOk (Getenv env "RENEWAL_TIME") ∧
      InitContext ext env c =
        ⟨[], Except.error (Halt.fatal (Fatal.invalidRenewalTime (Getenv env "RENEWAL_TIME")))⟩) ∨
    ((∀ name ∈ requiredVars, Getenv env name ≠ "") ∧ Getenv env "EULA" = "Yes" ∧
      renewalTimeOk (Getenv env "RENEWAL_TIME") ∧
      Getenv env "API_VERSION" ≠ "Production" ∧ Getenv env "API_VERSION" ≠ "Sandbox" ∧
      InitContext ext env c =
        ⟨[], Except.error (Halt.fatal (Fatal.invalidApiVersion (Getenv env "API_VERSION")))⟩) ∨
    ((∀ name ∈ requiredVars, Getenv env name ≠ "") ∧ Getenv env "EULA" = "Yes" ∧
      renewalTimeOk (Getenv env "RENEWAL_TIME") ∧
      ∃ d rest pre, listToSlice (Getenv env "DOMAINS") = d :: rest ∧
        ((Getenv env "API_VERSION" = "Production" ∧ pre = PREFIX_PROD) ∨
         (Getenv env "API_VERSION" = "Sandbox" ∧ pre = PREFIX_STAGING)) ∧
        InitContext ext env c =
          connectClients ext env (paramsOf env)
            { c with
              Domains := d :: rest
              RenewalTime := (Atoi (Getenv env "RENEWAL_TIME")).1
              RancherCertName :=
                if Getenv env "CERT_NAME" ≠ "" then Getenv env "CERT_NAME" else pre ++ d }) := by
  rcases readParams_cases env with ⟨hp, hreq⟩ | ⟨name, hname, hempty, hp⟩
  swap
  · left
    refine ⟨name, hname, hempty, ?_⟩
    unfold InitContext
    rw [hp]
  right
  by_cases heula : Getenv env "EULA" = "Yes"
  swap
  · left
    refine ⟨hreq, heula, ?_⟩
    unfold InitContext
    rw [hp]
    simp only [paramsOf, ne_eq, heula, not_false_eq_true, if_true]
  right
  have hrun := InitContext_of_required ext env c hreq heula
  by_cases htime : renewalTimeOk (Getenv env "RENEWAL_TIME")
  swap
  · left
    refine ⟨hreq, heula, htime, ?_⟩
    rw [hrun, if_pos]
    rw [renewalTimeOk_iff] at htime
    exact not_not.mp htime
  right
  rw [if_neg ((renewalTimeOk_iff _).mp htime)] at hrun
  obtain ⟨d, rest, hd⟩ := listToSlice_cons (Getenv env "DOMAINS")
  have hcert : ∀ auto : String,
      (if (Getenv env "CERT_NAME").length ≠ 0 then Getenv env "CERT_NAME" else auto) =
        (if Getenv env "CERT_NAME" ≠ "" then Getenv env "CERT_NAME" else auto) := by
    intro auto
    by_cases hc : Getenv env "CERT_NAME" = ""
    · rw [hc]; rfl
    · have : (Getenv env "CERT_NAME").length ≠ 0 := fun e =>
        hc ((length_eq_zero_iff _).mp (by simp [e]))
      rw [if_pos this, if_pos hc]
  by_cases hprod : Getenv env "API_VERSION" = "Production"
  · right
    refine ⟨hreq, heula, htime, d, rest, PREFIX_PROD, hd, Or.inl ⟨hprod, rfl⟩, ?_⟩
    rw [hrun, hd, hprod]
    simp only [certAutoName, if_true, List.getElem?_cons_zero, hcert]
  by_cases hsand : Getenv env "API_VERSION" = "Sandbox"
  · right
    refine ⟨hreq, heula, htime, d, rest, PREFIX_STAGING, hd, Or.inr ⟨hsand, rfl⟩, ?_⟩
    rw [hrun, hd, hsand]
    have hne : ¬ ("Sandbox" : String) = "Production" := by decide
    simp only [certAutoName, hne, if_true, if_false, List.getElem?_cons_zero, hcert]
  · left
    refine ⟨hreq, heula, htime, hprod, hsand, ?_⟩
    rw [hrun]
    simp only [certAutoName, hprod, hsand, if_false]

/-- When `Atoi` returns no error, the string is the notation of the value. -/
theorem Atoi_ok_base10 (t : String) (h : (Atoi t).2 = none) : IsBase10Integer t (Atoi t).1 := by
  by_cases hb : ∀ n, ¬ IsBase10Integer t n
  · exact absurd h (Atoi_not_base10 t hb)
  · push_neg at hb
    obtain ⟨n, hn⟩ := hb
    have hA := Atoi_of_base10 t n hn
    by_cases hr : -(2 : Int) ^ 63 ≤ n ∧ n < (2 : Int) ^ 63
    · rw [if_pos hr] at hA
      rw [hA]
      exact hn
    · rw [if_neg hr] at hA
      rw [hA] at h
      simp at h

/-- A successful run: what the environment satisfies, and what the context holds. -/
theorem InitContext_ok {R A : Type} (ext : Externals R A) (env : Env) (c ctx : Context R A)
    (h : (InitContext ext env c).result = Except.ok ctx) :
    (∀ name ∈ requiredVars, Getenv env name ≠ "") ∧ Getenv env "EULA" = "Yes" ∧
    renewalTimeOk (Getenv env "RENEWAL_TIME") ∧
    (∃ d rest pre, listToSlice (Getenv env "DOMAINS") = d :: rest ∧
      ((Getenv env "API_VERSION" = "Production" ∧ pre = PREFIX_PROD) ∨
       (Getenv env "API_VERSION" = "Sandbox" ∧ pre = PREFIX_STAGING)) ∧
      ctx.Domains = d :: rest ∧
      ctx.RancherCertName =
        if Getenv env "CERT_NAME" ≠ "" then Getenv env "CERT_NAME" else pre ++ d) ∧
    ctx.RenewalTime = (Atoi (Getenv env "RENEWAL_TIME")).1 ∧
    (∃ r, ext.rancherNewClient (Getenv env "CATTLE_URL") (Getenv env "CATTLE_ACCESS_KEY")
      (Getenv env "CATTLE_SECRET_KEY") = Except.ok r) ∧
    (∃ a, ext.letsencryptNewClient (Getenv env "EMAIL") (Getenv env "PUBLIC_KEY_TYPE")
      (Getenv env "API_VERSION") (providerOpts env (Getenv env "PROVIDER")) = Except.ok a) := by
  rcases InitContext_cases ext env c with ⟨n, _, _, hrun⟩ | ⟨_, _, hrun⟩ | ⟨_, _, _, hrun⟩ |
    ⟨_, _, _, _, _, hrun⟩ | ⟨hreq, heula, htime, d, rest, pre, hd, hapi, hrun⟩
  · rw [hrun] at h; simp at h
  · rw [hrun] at h; simp at h
  · rw [hrun] at h; simp at h
  · rw [hrun] at h; simp at h
  · rw [hrun] at h
    obtain ⟨h1, h2, h3, h4, h5⟩ := connectClients_ok _ _ _ _ _ h
    exact ⟨hreq, heula, htime, ⟨d, rest, pre, hd, hapi, h1, h3⟩, h2, h4, h5⟩

/-- The conditions under which a run succeeds. -/
theorem InitContext_succeeds {R A : Type} (ext : Externals R A) (env : Env) (c : Context R A)
    (hreq : ∀ name ∈ requiredVars, Getenv env name ≠ "") (heula : Getenv env "EULA" = "Yes")
    (htime : renewalTimeOk (Getenv env "RENEWAL_TIME"))
    (hapi : Getenv env "API_VERSION" = "Production" ∨ Getenv env "API_VERSION" = "Sandbox")
    (hr : ∃ r, ext.rancherNewClient (Getenv env "CATTLE_URL") (Getenv env "CATTLE_ACCESS_KEY")
      (Getenv env "CATTLE_SECRET_KEY") = Except.ok r)
    (ha : ∃ a, ext.letsencryptNewClient (Getenv env "EMAIL") (Getenv env "PUBLIC_KEY_TYPE")
      (Getenv env "API_VERSION") (providerOpts env (Getenv env "PROVIDER")) = Except.ok a) :
    ∃ ctx, (InitContext ext env c).result = Except.ok ctx := by
  obtain ⟨r, hr⟩ := hr
  obtain ⟨a, ha⟩ := ha
  rcases InitContext_cases ext env c with ⟨n, hn, he, _⟩ | ⟨_, he, _⟩ | ⟨_, _, ht, _⟩ |
    ⟨_, _, _, h1, h2, _⟩ | ⟨_, _, _, d, rest, pre, _, _, hrun⟩
  · exact absurd he (hreq n hn)
  · exact absurd heula he
  · exact absurd htime ht
  · rcases hapi with h | h
    · exact absurd h h1
    · exact absurd h h2
  · rw [hrun]
    exact connectClients_succeeds ext env (paramsOf env) _ r a hr ha

/-- A run that is not stopped at the renewal hour does not end in its error. -/
theorem InitContext_not_renewal_fatal {R A : Type} (ext : Externals R A) (env : Env)
    (c : Context R A) (htime : renewalTimeOk (Getenv env "RENEWAL_TIME")) (v : String) :
    (InitContext ext env c).result ≠
      Except.error (Halt.fatal (Fatal.invalidRenewalTime v)) := by
  rcases InitContext_cases ext env c with ⟨n, _, _, h⟩ | ⟨_, _, h⟩ | ⟨_, _, ht, _⟩ |
    ⟨_, _, _, _, _, h⟩ | ⟨_, _, _, _, _, _, _, _, h⟩
  · rw [h]; simp
  · rw [h]; simp
  · exact absurd htime ht
  · rw [h]; simp
  · rw [h]
    intro he
    obtain ⟨e, he1 | he1⟩ := connectClients_error _ _ _ _ _ he <;> simp at he1

theorem prefixes_differ (d : String) : PREFIX_PROD ++ d ≠ PREFIX_STAGING ++ d := by
  intro h
  have h2 := congrArg String.data h
  simp only [String.data_append] at h2
  have h3 : PREFIX_PROD.data = "[LE".data ++ "] ".data := by decide
  have h4 : PREFIX_STAGING.data = "[LE".data ++ "-TESTING] ".data := by decide
  rw [h3, h4, List.append_assoc, List.append_assoc] at h2
  have h5 := List.append_cancel_left h2
  have h6 : ("] ".data ++ d.data).head? = ("-TESTING] ".data ++ d.data).head? := by rw [h5]
  have h7 : ("] ".data ++ d.data).head? = "] ".data.head? := rfl
  have h8 : ("-TESTING] ".data ++ d.data).head? = "-TESTING] ".data.head? := rfl
  rw [h7, h8] at h6
  revert h6
  decide

/-! ## The claims -/

/-- C10: for every input string `listToSlice` returns a non-empty list, of
length the number of commas in the input plus one, and `[""]` for the empty or
all-whitespace string; hence no run of `InitContext` ends in the fatal error
`Invalid value for DOMAINS`, and the indexing `c.Domains[0]` never goes out of
range. -/
theorem listToSlice_never_empty {R A : Type} (ext : Externals R A) (env : Env)
    (c : Context R A) (str : String) :
    (listToSlice str).length = str.data.count comma + 1 ∧
    listToSlice str ≠ [] ∧
    (∃ d, (listToSlice str)[0]? = some d) ∧
    ((∀ ch ∈ str.data, isSpace ch = true) → listToSlice str = [""]) ∧
    (∀ v, (InitContext ext env c).result ≠ Except.error (Halt.fatal (Fatal.invalidDomains v))) ∧
    (InitContext ext env c).result ≠ Except.error Halt.indexOutOfRange := by
  obtain ⟨d, rest, hd⟩ := listToSlice_cons str
  refine ⟨listToSlice_length str, by simp [hd], ⟨d, by simp [hd]⟩, ?_, ?_, ?_⟩
  · intro hsp
    rw [listToSlice_eq, stripSpace_eq_nil _ hsp]
    rfl
  · intro v
    rcases InitContext_cases ext env c with ⟨n, _, _, h⟩ | ⟨_, _, h⟩ | ⟨_, _, _, h⟩ |
      ⟨_, _, _, _, _, h⟩ | ⟨_, _, _, _, _, _, _, _, h⟩
    · rw [h]; simp
    · rw [h]; simp
    · rw [h]; simp
    · rw [h]; simp
    · rw [h]
      intro he
      obtain ⟨e, he1 | he1⟩ := connectClients_error _ _ _ _ _ he <;> simp at he1
  · rcases InitContext_cases ext env c with ⟨n, _, _, h⟩ | ⟨_, _, h⟩ | ⟨_, _, _, h⟩ |
      ⟨_, _, _, _, _, h⟩ | ⟨_, _, _, _, _, _, _, _, h⟩
    · rw [h]; simp
    · rw [h]; simp
    · rw [h]; simp
    · rw [h]; simp
    · rw [h]
      intro he
      obtain ⟨e, he1 | he1⟩ := connectClients_error _ _ _ _ _ he <;> simp at he1

/-- C10, at a string of two spaces, which parses to the single empty entry. -/
theorem listToSlice_never_empty_witness : listToSlice "  " = [""] :=
  (listToSlice_never_empty okExternals (sampleEnv "Yes" "Production" "  " "23") zeroContext
    "  ").2.2.2.1 (by decide)

/-- C8: for every non-empty list of tokens without comma and whitespace,
`listToSlice` of the tokens joined with `","` is exactly that list, in order,
with duplicates and letter case kept; its first token is the domain the default
certificate name is derived from. -/
theorem listToSlice_join_comma (tokens : List String) (hne : tokens ≠ [])
    (htok : ∀ t ∈ tokens, IsToken t) :
    listToSlice (Join tokens ",") = tokens ∧
    (∀ first rest, tokens = first :: rest →
      certAutoName "Production" (listToSlice (Join tokens ",")) =
        Except.ok (PREFIX_PROD ++ first) ∧
      certAutoName "Sandbox" (listToSlice (Join tokens ",")) =
        Except.ok (PREFIX_STAGING ++ first)) := by
  have h := (listToSlice_Join tokens "," hne htok).1 (by decide)
  refine ⟨h, ?_⟩
  intro first rest hfr
  rw [h, hfr]
  have hne2 : ¬ ("Sandbox" : String) = "Production" := by decide
  simp [certAutoName, hne2]

/-- C8, at a list with a duplicate and two spellings of one name. -/
theorem listToSlice_join_comma_witness :
    listToSlice "Example.com,example.com,example.com" =
      ["Example.com", "example.com", "example.com"] :=
  (listToSlice_join_comma ["Example.com", "example.com", "example.com"] (by decide)
    (by
      intro t ht
      simp only [List.mem_cons, List.mem_singleton, List.not_mem_nil, or_false] at ht
      rcases ht with rfl | rfl | rfl <;> (intro ch hch; revert ch; decide))).1

/-- C9, as written, fails: two domains joined by a space parse to one entry,
their concatenation. -/
theorem listToSlice_space_separated_counterexample :
    Join ["a.com", "b.com"] " " = "a.com b.com" ∧
    listToSlice "a.com b.com" = ["a.comb.com"] ∧
    listToSlice "a.com b.com" ≠ ["a.com", "b.com"] := by
  decide

/-- C9, amended: the value of DOMAINS is a comma-separated list in which
whitespace is ignored. For every non-empty list of domains without comma and
whitespace, `listToSlice` yields those same domains when they are joined by
commas, also by a comma among whitespace; joined by whitespace alone they yield
one entry, their concatenation. -/
theorem listToSlice_separators (domains : List String) (hne : domains ≠ [])
    (hdom : ∀ d ∈ domains, IsToken d) :
    listToSlice (Join domains ",") = domains ∧
    (∀ sep : String, stripSpace sep.data = [comma] → listToSlice (Join domains sep) = domains) ∧
    (∀ sep : String, (∀ ch ∈ sep.data, isSpace ch = true) →
      listToSlice (Join domains sep) = [Join domains ""]) := by
  refine ⟨(listToSlice_Join domains "," hne hdom).1 (by decide), ?_, ?_⟩
  · intro sep hsep
    exact (listToSlice_Join domains sep hne hdom).1 hsep
  · intro sep hsep
    exact (listToSlice_Join domains sep hne hdom).2 (stripSpace_eq_nil _ hsep)

/-- C9, amended, at two domains: joined by a comma and a space they are parsed
back, joined by a space they are concatenated. -/
theorem listToSlice_separators_witness :
    listToSlice (Join ["a.com", "b.com"] ", ") = ["a.com", "b.com"] ∧
    listToSlice (Join ["a.com", "b.com"] " ") = [Join ["a.com", "b.com"] ""] :=
  have h := listToSlice_separators ["a.com", "b.com"] (by decide)
    (by
      intro t ht
      simp only [List.mem_cons, List.mem_singleton, List.not_mem_nil, or_false] at ht
      rcases ht with rfl | rfl <;> (intro ch hch; revert ch; decide))
  ⟨h.2.1 ", " (by decide), h.2.2 " " (by decide)⟩

/-- C2: the code accepts a DOMAINS value without any non-empty domain. With
DOMAINS set to `","`, or to a single space, and every other setting valid,
`InitContext` succeeds, and `Domains` holds empty strings only. -/
theorem domains_comma_only_is_accepted :
    listToSlice "," = ["", ""] ∧
    (InitContext okExternals (sampleEnv "Yes" "Production" "," "23") zeroContext).result =
      Except.ok
        { Acme := some (), Rancher := some (), Domains := ["", ""], RenewalTime := 23,
          ExpiryDate := 0, RancherCertId := "", RancherCertName := "[LE] ", Debug := false } ∧
    listToSlice " " = [""] ∧
    (InitContext okExternals (sampleEnv "Yes" "Production" " " "23") zeroContext).result =
      Except.ok
        { Acme := some (), Rancher := some (), Domains := [""], RenewalTime := 23,
          ExpiryDate := 0, RancherCertId := "", RancherCertName := "[LE] ", Debug := false } :=
  ⟨by decide, rfl, by decide, rfl⟩

/-- C1, as written, fails at the empty RENEWAL_TIME: it is not a base-10
integer, every other setting is valid (with `"23"` in its place the run
succeeds), and the run ends in `Required environment variable not set:
RENEWAL_TIME`, not in `Invalid value for RENEWAL_TIME`. -/
theorem renewal_time_empty_counterexample :
    (∀ n, ¬ IsBase10Integer "" n) ∧
    (∃ ctx, (InitContext okExternals (sampleEnv "Yes" "Production" "example.com" "23")
      zeroContext).result = Except.ok ctx) ∧
    InitContext okExternals (sampleEnv "Yes" "Production" "example.com" "") zeroContext =
      ⟨[], Except.error (Halt.fatal (Fatal.requiredNotSet "RENEWAL_TIME"))⟩ ∧
    (Fatal.requiredNotSet "RENEWAL_TIME").message =
      "Required environment variable not set: RENEWAL_TIME" ∧
    ¬ ("Invalid value for RENEWAL_TIME".data <:+:
      (Fatal.requiredNotSet "RENEWAL_TIME").message.data) := by
  refine ⟨?_, ⟨_, rfl⟩, rfl, rfl, by decide⟩
  rintro n ⟨ds, hne, _, h | h | h⟩
  · exact hne h.1.symm
  · exact absurd h.1 (by simp)
  · exact absurd h.1 (by simp)

/-- C1, amended: in every environment in which the other required variables are
set and the terms are accepted, `InitContext` ends in the fatal error `Invalid
value for RENEWAL_TIME` for every non-empty RENEWAL_TIME that is not a base-10
integer or whose value is below 0 or above 23, and in `Required environment
variable not set: RENEWAL_TIME` for the empty one; `"0"` and `"23"` pass the
renewal-hour check with `RenewalTime` 0 and 23; on success `RenewalTime` is in
[0,23] and is the value RENEWAL_TIME denotes. -/
theorem renewal_time_check {R A : Type} (ext : Externals R A) (env : Env) (c : Context R A)
    (hother : ∀ name ∈ requiredVars, name ≠ "RENEWAL_TIME" → Getenv env name ≠ "")
    (heula : Getenv env "EULA" = "Yes") :
    (Getenv env "RENEWAL_TIME" = "" →
      InitContext ext env c =
        ⟨[], Except.error (Halt.fatal (Fatal.requiredNotSet "RENEWAL_TIME"))⟩) ∧
    (Getenv env "RENEWAL_TIME" ≠ "" →
      ((∀ n, ¬ IsBase10Integer (Getenv env "RENEWAL_TIME") n) ∨
        ∃ n, IsBase10Integer (Getenv env "RENEWAL_TIME") n ∧ (n < 0 ∨ 23 < n)) →
      InitContext ext env c =
        ⟨[], Except.error (Halt.fatal (Fatal.invalidRenewalTime (Getenv env "RENEWAL_TIME")))⟩) ∧
    (Getenv env "RENEWAL_TIME" = "0" →
      (∀ v, (InitContext ext env c).result ≠
        Except.error (Halt.fatal (Fatal.invalidRenewalTime v))) ∧
      ∀ ctx, (InitContext ext env c).result = Except.ok ctx → ctx.RenewalTime = 0) ∧
    (Getenv env "RENEWAL_TIME" = "23" →
      (∀ v, (InitContext ext env c).result ≠
        Except.error (Halt.fatal (Fatal.invalidRenewalTime v))) ∧
      ∀ ctx, (InitContext ext env c).result = Except.ok ctx → ctx.RenewalTime = 23) ∧
    (∀ ctx, (InitContext ext env c).result = Except.ok ctx →
      0 ≤ ctx.RenewalTime ∧ ctx.RenewalTime ≤ 23 ∧
      IsBase10Integer (Getenv env "RENEWAL_TIME") ctx.RenewalTime) := by
  refine ⟨?_, ?_, ?_, ?_, ?_⟩
  · intro hempty
    rcases InitContext_cases ext env c with ⟨n, hn, he, h⟩ | ⟨hreq, _⟩ | ⟨hreq, _⟩ |
      ⟨hreq, _⟩ | ⟨hreq, _⟩
    · by_cases hnt : n = "RENEWAL_TIME"
      · rw [h, hnt]
      · exact absurd he (hother n hn hnt)
    all_goals exact absurd hempty (hreq "RENEWAL_TIME" (by decide))
  · intro hset hbad
    have hreq : ∀ name ∈ requiredVars, Getenv env name ≠ "" := by
      intro name hname
      by_cases hnt : name = "RENEWAL_TIME"
      · rw [hnt]; exact hset
      · exact hother name hname hnt
    rw [InitContext_of_required ext env c hreq heula, if_pos]
    rcases hbad with hnot | ⟨n, hn, hrange⟩
    · left
      have := Atoi_not_base10 _ hnot
      cases hA : (Atoi (Getenv env "RENEWAL_TIME")).2 with
      | none => exact absurd hA this
      | some e => rfl
    · have hA := Atoi_of_base10 _ n hn
      by_cases hr : -(2 : Int) ^ 63 ≤ n ∧ n < (2 : Int) ^ 63
      · rw [if_pos hr] at hA
        right
        rw [hA]
        simp only
        omega
      · rw [if_neg hr] at hA
        left
        rw [hA]
        rfl
  · intro h0
    have htime : renewalTimeOk (Getenv env "RENEWAL_TIME") := by
      rw [h0]; exact ⟨rfl, by decide, by decide⟩
    refine ⟨InitContext_not_renewal_fatal ext env c htime, ?_⟩
    intro ctx hctx
    rw [(InitContext_ok ext env c ctx hctx).2.2.2.2.1, h0]
    rfl
  · intro h23
    have htime : renewalTimeOk (Getenv env "RENEWAL_TIME") := by
      rw [h23]; exact ⟨rfl, by decide, by decide⟩
    refine ⟨InitContext_not_renewal_fatal ext env c htime, ?_⟩
    intro ctx hctx
    rw [(InitContext_ok ext env c ctx hctx).2.2.2.2.1, h23]
    rfl
  · intro ctx hctx
    obtain ⟨_, _, htime, _, hrt, _⟩ := InitContext_ok ext env c ctx hctx
    rw [hrt]
    exact ⟨htime.2.1, htime.2.2, Atoi_ok_base10 _ htime.1⟩

/-- C1, amended, at RENEWAL_TIME `"24"`, the notation of an integer above 23. -/
theorem renewal_time_check_witness :
    InitContext okExternals (sampleEnv "Yes" "Production" "example.com" "24") zeroContext =
      ⟨[], Except.error (Halt.fatal (Fatal.invalidRenewalTime "24"))⟩ :=
  (renewal_time_check okExternals (sampleEnv "Yes" "Production" "example.com" "24") zeroContext
    (by decide) rfl).2.1 (by decide)
    (Or.inr ⟨24, ⟨"24".data, by decide, by decide, Or.inl ⟨rfl, rfl⟩⟩, Or.inr (by decide)⟩)

/-- C3: on every environment on which `InitContext` succeeds, `RancherCertName`
is CERT_NAME when that is non-empty, and otherwise the prefix of the
environment followed by the first parsed domain, `"[LE] "` for `Production` and
`"[LE-TESTING] "` for `Sandbox`; the two prefixes never give the same name for
one domain. -/
theorem cert_name_explicit_or_derived {R A : Type} (ext : Externals R A) (env : Env)
    (c ctx : Context R A) (h : (InitContext ext env c).result = Except.ok ctx) :
    (Getenv env "CERT_NAME" ≠ "" → ctx.RancherCertName = Getenv env "CERT_NAME") ∧
    (Getenv env "CERT_NAME" = "" →
      ∃ d rest, listToSlice (Getenv env "DOMAINS") = d :: rest ∧
        ((Getenv env "API_VERSION" = "Production" ∧ ctx.RancherCertName = "[LE] " ++ d) ∨
         (Getenv env "API_VERSION" = "Sandbox" ∧
           ctx.RancherCertName = "[LE-TESTING] " ++ d))) ∧
    PREFIX_PROD = "[LE] " ∧ PREFIX_STAGING = "[LE-TESTING] " ∧
    (∀ d : String, PREFIX_PROD ++ d ≠ PREFIX_STAGING ++ d) := by
  obtain ⟨_, _, _, ⟨d, rest, pre, hd, hapi, _, hname⟩, _⟩ := InitContext_ok ext env c ctx h
  refine ⟨?_, ?_, rfl, rfl, prefixes_differ⟩
  · intro hset
    rw [hname, if_pos hset]
  · intro hempty
    rw [if_neg (not_not.mpr hempty)] at hname
    refine ⟨d, rest, hd, ?_⟩
    rcases hapi with ⟨ha, rfl⟩ | ⟨ha, rfl⟩
    · exact Or.inl ⟨ha, hname⟩
    · exact Or.inr ⟨ha, hname⟩

/-- C3, at a `Sandbox` environment without CERT_NAME and with two domains. -/
theorem cert_name_explicit_or_derived_witness :
    ∃ d rest, listToSlice "b.org,a.com" = d :: rest ∧
      (("Sandbox" = "Production" ∧ "[LE-TESTING] b.org" = "[LE] " ++ d) ∨
       ("Sandbox" = "Sandbox" ∧ "[LE-TESTING] b.org" = "[LE-TESTING] " ++ d)) :=
  (cert_name_explicit_or_derived okExternals (sampleEnv "Yes" "Sandbox" "b.org,a.com" "7")
    zeroContext
    { Acme := some (), Rancher := some (), Domains := ["b.org", "a.com"], RenewalTime := 7,
      ExpiryDate := 0, RancherCertId := "", RancherCertName := "[LE-TESTING] b.org",
      Debug := false } rfl).2.1 rfl

/-- C4: in every environment whose EULA value is not exactly `"Yes"`,
`InitContext` ends in a fatal error before any call of `rancher.NewClient` or
`letsencrypt.NewClient` (no call at all is recorded), and never succeeds; with
all required variables set, the error is that the terms were not accepted. -/
theorem eula_not_accepted_is_fatal {R A : Type} (ext : Externals R A) (env : Env)
    (c : Context R A) (h : Getenv env "EULA" ≠ "Yes") :
    (∃ f, (InitContext ext env c).result = Except.error (Halt.fatal f)) ∧
    (InitContext ext env c).calls = [] ∧
    (∀ ctx, (InitContext ext env c).result ≠ Except.ok ctx) ∧
    ((∀ name ∈ requiredVars, Getenv env name ≠ "") →
      (InitContext ext env c).result = Except.error (Halt.fatal Fatal.termsNotAccepted)) := by
  rcases InitContext_cases ext env c with ⟨n, hn, he, hrun⟩ | ⟨_, _, hrun⟩ | ⟨_, he, _⟩ |
    ⟨_, he, _⟩ | ⟨_, he, _⟩
  · refine ⟨⟨_, by rw [hrun]⟩, by rw [hrun], ?_, ?_⟩
    · intro ctx; rw [hrun]; simp
    · intro hreq; exact absurd he (hreq n hn)
  · refine ⟨⟨_, by rw [hrun]⟩, by rw [hrun], ?_, ?_⟩
    · intro ctx; rw [hrun]; simp
    · intro _; rw [hrun]
  all_goals exact absurd he h

/-- C4, at the EULA value `"yes"`. -/
theorem eula_not_accepted_is_fatal_witness :
    (InitContext okExternals (sampleEnv "yes" "Production" "example.com" "23")
      zeroContext).result = Except.error (Halt.fatal Fatal.termsNotAccepted) ∧
    (InitContext okExternals (sampleEnv "yes" "Production" "example.com" "23")
      zeroContext).calls = [] :=
  have h := eula_not_accepted_is_fatal okExternals
    (sampleEnv "yes" "Production" "example.com" "23") zeroContext (by decide)
  ⟨h.2.2.2 (by decide), h.2.1⟩

/-- C5: with all earlier checks passing (the nine required variables set, the
terms accepted, the renewal hour valid), every API_VERSION other than
`"Production"` and `"Sandbox"` ends `InitContext` in the fatal error `Invalid
value for API_VERSION`, before any client is constructed; for the two accepted
values the check passes and the run goes on to `rancher.NewClient`. -/
theorem api_version_check {R A : Type} (ext : Externals R A) (env : Env) (c : Context R A)
    (hreq : ∀ name ∈ requiredVars, Getenv env name ≠ "")
    (heula : Getenv env "EULA" = "Yes")
    (htime : renewalTimeOk (Getenv env "RENEWAL_TIME")) :
    (Getenv env "API_VERSION" ≠ "Production" → Getenv env "API_VERSION" ≠ "Sandbox" →
      InitContext ext env c =
        ⟨[], Except.error (Halt.fatal (Fatal.invalidApiVersion (Getenv env "API_VERSION")))⟩ ∧
      (Fatal.invalidApiVersion (Getenv env "API_VERSION")).message =
        "Invalid value for API_VERSION: " ++ Getenv env "API_VERSION") ∧
    (Getenv env "API_VERSION" = "Production" ∨ Getenv env "API_VERSION" = "Sandbox" →
      (∀ v, (InitContext ext env c).result ≠
        Except.error (Halt.fatal (Fatal.invalidApiVersion v))) ∧
      (InitContext ext env c).calls.head? =
        some (Call.rancherNewClient (Getenv env "CATTLE_URL") (Getenv env "CATTLE_ACCESS_KEY")
          (Getenv env "CATTLE_SECRET_KEY"))) := by
  rcases InitContext_cases ext env c with ⟨n, hn, he, _⟩ | ⟨_, he, _⟩ | ⟨_, _, ht, _⟩ |
    ⟨_, _, _, h1, h2, hrun⟩ | ⟨_, _, _, d, rest, pre, _, hapi, hrun⟩
  · exact absurd he (hreq n hn)
  · exact absurd heula he
  · exact absurd htime ht
  · refine ⟨fun _ _ => ⟨hrun, rfl⟩, ?_⟩
    rintro (h | h)
    · exact absurd h h1
    · exact absurd h h2
  · refine ⟨?_, ?_⟩
    · intro h1 h2
      rcases hapi with ⟨h, _⟩ | ⟨h, _⟩
      · exact absurd h h1
      · exact absurd h h2
    · intro _
      rw [hrun]
      refine ⟨?_, connectClients_calls ext env (paramsOf env) _⟩
      intro v he
      obtain ⟨e, he1 | he1⟩ := connectClients_error _ _ _ _ _ he <;> simp at he1

/-- C5, at the API_VERSION value `"production"`. -/
theorem api_version_check_witness :
    InitContext okExternals (sampleEnv "Yes" "production" "example.com" "23") zeroContext =
      ⟨[], Except.error (Halt.fatal (Fatal.invalidApiVersion "production"))⟩ :=
  ((api_version_check okExternals (sampleEnv "Yes" "production" "example.com" "23") zeroContext
    (by decide) rfl ⟨rfl, by decide, by decide⟩).1 (by decide) (by decide)).1

/-- C6: for each of the nine required variables, every environment in which it
is unset or empty ends `InitContext` in the fatal error of a missing required
variable, whatever the other variables hold; and whether `InitContext` succeeds
does not depend on the optional variables DEBUG and CERT_NAME, so leaving them
unset or empty never makes it fail. -/
theorem required_variables_are_required {R A : Type} (ext : Externals R A) (env : Env)
    (c : Context R A) :
    requiredVars = ["CATTLE_URL", "CATTLE_ACCESS_KEY", "CATTLE_SECRET_KEY", "API_VERSION",
      "EMAIL", "DOMAINS", "PUBLIC_KEY_TYPE", "RENEWAL_TIME", "PROVIDER"] ∧
    (∀ name ∈ requiredVars, (env name = none ∨ env name = some "") →
      (∃ missing ∈ requiredVars,
        InitContext ext env c =
          ⟨[], Except.error (Halt.fatal (Fatal.requiredNotSet missing))⟩) ∧
      ∀ ctx, (InitContext ext env c).result ≠ Except.ok ctx) ∧
    (∀ env2 : Env, (∀ name, name ≠ "DEBUG" → name ≠ "CERT_NAME" → env2 name = env name) →
      ((∃ ctx, (InitContext ext env2 c).result = Except.ok ctx) ↔
        ∃ ctx, (InitContext ext env c).result = Except.ok ctx)) := by
  refine ⟨rfl, ?_, ?_⟩
  · intro name hname hempty
    have hE : Getenv env name = "" := (Getenv_eq_empty env name).mpr hempty
    rcases InitContext_cases ext env c with ⟨n, hn, _, hrun⟩ | ⟨hreq, _⟩ | ⟨hreq, _⟩ |
      ⟨hreq, _⟩ | ⟨hreq, _⟩
    · refine ⟨⟨n, hn, hrun⟩, ?_⟩
      intro ctx; rw [hrun]; simp
    all_goals exact absurd hE (hreq name hname)
  · intro env2 hagree
    have hG : ∀ name, name ≠ "DEBUG" → name ≠ "CERT_NAME" → Getenv env2 name = Getenv env name := by
      intro name h1 h2
      unfold Getenv
      rw [hagree name h1 h2]
    have hreq : (∀ name ∈ requiredVars, Getenv env2 name ≠ "") ↔
        (∀ name ∈ requiredVars, Getenv env name ≠ "") := by
      have hn : ∀ name ∈ requiredVars, name ≠ "DEBUG" ∧ name ≠ "CERT_NAME" := by decide
      constructor
      · intro h name hname
        rw [← hG name (hn name hname).1 (hn name hname).2]
        exact h name hname
      · intro h name hname
        rw [hG name (hn name hname).1 (hn name hname).2]
        exact h name hname
    have hopts : ∀ p, providerOpts env2 p = providerOpts env p := by
      intro p
      simp only [providerOpts, hG "CLOUDFLARE_EMAIL" (by decide) (by decide),
        hG "CLOUDFLARE_KEY" (by decide) (by decide), hG "DO_ACCESS_TOKEN" (by decide) (by decide),
        hG "AWS_ACCESS_KEY" (by decide) (by decide), hG "AWS_SECRET_KEY" (by decide) (by decide),
        hG "DNSIMPLE_EMAIL" (by decide) (by decide), hG "DNSIMPLE_KEY" (by decide) (by decide),
        hG "DYN_CUSTOMER_NAME" (by decide) (by decide), hG "DYN_USER_NAME" (by decide) (by decide),
        hG "DYN_PASSWORD" (by decide) (by decide)]
    have key : ∀ (e1 e2 : Env), (∀ name, name ≠ "DEBUG" → name ≠ "CERT_NAME" →
        Getenv e1 name = Getenv e2 name) →
        ((∀ name ∈ requiredVars, Getenv e1 name ≠ "") → (∀ name ∈ requiredVars, Getenv e2 name ≠ "")) →
        (∀ p, providerOpts e1 p = providerOpts e2 p) →
        (∃ ctx, (InitContext ext e1 c).result = Except.ok ctx) →
        ∃ ctx, (InitContext ext e2 c).result = Except.ok ctx := by
      intro e1 e2 hg hr ho ⟨ctx, hctx⟩
      obtain ⟨h1, h2, h3, ⟨d, rest, pre, _, hapi, _⟩, _, h5, h6⟩ := InitContext_ok ext e1 c ctx hctx
      rw [hg "CATTLE_URL" (by decide) (by decide), hg "CATTLE_ACCESS_KEY" (by decide) (by decide),
        hg "CATTLE_SECRET_KEY" (by decide) (by decide)] at h5
      rw [hg "EMAIL" (by decide) (by decide), hg "PUBLIC_KEY_TYPE" (by decide) (by decide),
        hg "API_VERSION" (by decide) (by decide), hg "PROVIDER" (by decide) (by decide), ho] at h6
      rw [hg "EULA" (by decide) (by decide)] at h2
      rw [hg "RENEWAL_TIME" (by decide) (by decide)] at h3
      rw [hg "API_VERSION" (by decide) (by decide)] at hapi
      refine InitContext_succeeds ext e2 c (hr h1) h2 h3 ?_ h5 h6
      rcases hapi with ⟨h, _⟩ | ⟨h, _⟩
      · exact Or.inl h
      · exact Or.inr h
    constructor
    · exact key env2 env hG hreq.mp hopts
    · exact key env env2 (fun n a b => (hG n a b).symm) hreq.mpr (fun p => (hopts p).symm)

/-- C6, at an environment without EMAIL, and at a complete environment without
DEBUG and CERT_NAME against the one that sets both. -/
theorem required_variables_are_required_witness :
    ((∃ missing ∈ requiredVars,
        InitContext okExternals envWithoutEmail zeroContext =
          ⟨[], Except.error (Halt.fatal (Fatal.requiredNotSet missing))⟩) ∧
      ∀ ctx, (InitContext okExternals envWithoutEmail zeroContext).result ≠ Except.ok ctx) ∧
    ((∃ ctx, (InitContext okExternals
        (envOf (("DEBUG", "true") :: ("CERT_NAME", "mine") :: sampleVars))
        zeroContext).result = Except.ok ctx) ↔
      ∃ ctx, (InitContext okExternals (envOf sampleVars) zeroContext).result = Except.ok ctx) :=
  ⟨(required_variables_are_required okExternals envWithoutEmail zeroContext).2.1
      "EMAIL" (by decide) (Or.inl rfl),
   (required_variables_are_required okExternals (envOf sampleVars) zeroContext).2.2
      (envOf (("DEBUG", "true") :: ("CERT_NAME", "mine") :: sampleVars))
      (fun name h1 h2 => by
        have e1 : (name == "DEBUG") = false := by simpa using h1
        have e2 : (name == "CERT_NAME") = false := by simpa using h2
        simp only [envOf, List.lookup, e1, e2])⟩

/-- C7, as written, fails for the terms: with EULA set to `"no"` the run ends in
the fatal error `Terms of service were not accepted`, which does not contain the
name `EULA` of the variable that caused it. -/
theorem terms_message_counterexample :
    InitContext okExternals (sampleEnv "no" "Production" "example.com" "23") zeroContext =
      ⟨[], Except.error (Halt.fatal Fatal.termsNotAccepted)⟩ ∧
    Fatal.termsNotAccepted.message = "Terms of service were not accepted" ∧
    ¬ ("EULA".data <:+: Fatal.termsNotAccepted.message.data) :=
  ⟨rfl, rfl, by decide⟩

/-- C7, amended: the message for an invalid DOMAINS contains that name, and
every fatal error of a run of `InitContext` is one of these. For a missing
required variable, an invalid RENEWAL_TIME and an invalid API_VERSION the
message contains the name of the variable that caused it; the error for
unaccepted terms reads `Terms of service were not accepted`, without the name of
the variable; the remaining errors come from the client constructors. -/
theorem fatal_message_names_variable {R A : Type} (ext : Externals R A) (env : Env)
    (c : Context R A) (f : Fatal)
    (h : (InitContext ext env c).result = Except.error (Halt.fatal f)) :
    (∀ v, "DOMAINS".data <:+: (Fatal.invalidDomains v).message.data) ∧
    ((∃ name ∈ requiredVars, f = Fatal.requiredNotSet name ∧ Getenv env name = "" ∧
      name.data <:+: f.message.data) ∨
    (f = Fatal.termsNotAccepted ∧ Getenv env "EULA" ≠ "Yes" ∧
      f.message = "Terms of service were not accepted") ∨
    (f = Fatal.invalidRenewalTime (Getenv env "RENEWAL_TIME") ∧
      ¬ renewalTimeOk (Getenv env "RENEWAL_TIME") ∧
      "RENEWAL_TIME".data <:+: f.message.data) ∨
    (f = Fatal.invalidApiVersion (Getenv env "API_VERSION") ∧
      Getenv env "API_VERSION" ≠ "Production" ∧ Getenv env "API_VERSION" ≠ "Sandbox" ∧
      "API_VERSION".data <:+: f.message.data) ∨
    (∃ e, f = Fatal.rancherApi e ∨ f = Fatal.letsEncryptClient e)) := by
  refine ⟨fun v => ⟨"Invalid value for ".data, ": ".data ++ v.data, by
    simp only [Fatal.message, String.data_append]; rfl⟩, ?_⟩
  rcases InitContext_cases ext env c with ⟨n, hn, he, hrun⟩ | ⟨_, he, hrun⟩ | ⟨_, _, ht, hrun⟩ |
    ⟨_, _, _, h1, h2, hrun⟩ | ⟨_, _, _, _, _, _, _, _, hrun⟩
  · rw [hrun] at h
    simp only [Except.error.injEq, Halt.fatal.injEq] at h
    subst h
    refine Or.inl ⟨n, hn, rfl, he, ?_⟩
    simp only [Fatal.message, String.data_append]
    exact (List.suffix_append _ _).isInfix
  · rw [hrun] at h
    simp only [Except.error.injEq, Halt.fatal.injEq] at h
    subst h
    exact Or.inr (Or.inl ⟨rfl, he, rfl⟩)
  · rw [hrun] at h
    simp only [Except.error.injEq, Halt.fatal.injEq] at h
    subst h
    refine Or.inr (Or.inr (Or.inl ⟨rfl, ht, ?_⟩))
    simp only [Fatal.message, String.data_append]
    exact ⟨"Invalid value for ".data, ": ".data ++ (Getenv env "RENEWAL_TIME").data, rfl⟩
  · rw [hrun] at h
    simp only [Except.error.injEq, Halt.fatal.injEq] at h
    subst h
    refine Or.inr (Or.inr (Or.inr (Or.inl ⟨rfl, h1, h2, ?_⟩)))
    simp only [Fatal.message, String.data_append]
    exact ⟨"Invalid value for ".data, ": ".data ++ (Getenv env "API_VERSION").data, rfl⟩
  · rw [hrun] at h
    obtain ⟨e, he | he⟩ := connectClients_error _ _ _ _ _ h
    · simp only [Halt.fatal.injEq] at he
      exact Or.inr (Or.inr (Or.inr (Or.inr ⟨e, Or.inl he⟩)))
    · simp only [Halt.fatal.injEq] at he
      exact Or.inr (Or.inr (Or.inr (Or.inr ⟨e, Or.inr he⟩)))

/-- C7, amended, at an environment without PROVIDER. -/
theorem fatal_message_names_variable_witness :
    (∀ v, "DOMAINS".data <:+: (Fatal.invalidDomains v).message.data) ∧
    ((∃ name ∈ requiredVars, Fatal.requiredNotSet "PROVIDER" = Fatal.requiredNotSet name ∧
      Getenv envWithoutProvider name = "" ∧
      name.data <:+: (Fatal.requiredNotSet "PROVIDER").message.data) ∨
    (Fatal.requiredNotSet "PROVIDER" = Fatal.termsNotAccepted ∧
      Getenv envWithoutProvider "EULA" ≠ "Yes" ∧
      (Fatal.requiredNotSet "PROVIDER").message = "Terms of service were not accepted") ∨
    (Fatal.requiredNotSet "PROVIDER" =
        Fatal.invalidRenewalTime (Getenv envWithoutProvider "RENEWAL_TIME") ∧
      ¬ renewalTimeOk (Getenv envWithoutProvider "RENEWAL_TIME") ∧
      "RENEWAL_TIME".data <:+: (Fatal.requiredNotSet "PROVIDER").message.data) ∨
    (Fatal.requiredNotSet "PROVIDER" =
        Fatal.invalidApiVersion (Getenv envWithoutProvider "API_VERSION") ∧
      Getenv envWithoutProvider "API_VERSION" ≠ "Production" ∧
      Getenv envWithoutProvider "API_VERSION" ≠ "Sandbox" ∧
      "API_VERSION".data <:+: (Fatal.requiredNotSet "PROVIDER").message.data) ∨
    (∃ e, Fatal.requiredNotSet "PROVIDER" = Fatal.rancherApi e ∨
      Fatal.requiredNotSet "PROVIDER" = Fatal.letsEncryptClient e)) :=
  fatal_message_names_variable okExternals envWithoutProvider zeroContext
    (Fatal.requiredNotSet "PROVIDER") rfl

end RancherLetsencrypt
